import Mathlib

set_option exponentiation.threshold 1100

/-!
Verification development for `viewdf.py`, a small CLI utility that inspects
tabular files (CSV/TSV/pickle) with pandas.

The definitions below are a shallow embedding of the Python source:

* the slice-expression handling of `main` (lines 156-195 of `viewdf.py`),
  including CPython's `slice.indices` semantics that `df.iloc[sl]` applies
  to the row range;
* the action-dispatch control flow of `main` (lines 129-212);
* the snapshot (`.pkl`) branch of `load_dataframe` (lines 61-83);
* a type-inference model for delimited ingestion (delegated by the source to
  the external pandas CSV reader, hence modelled from the spec, see below).
-/

namespace Viewdf

/-! ## Slice expressions

`main` parses `args.slice` by hand: a character whitelist, a split on `":"`,
a field count check, and Python `int` parsing of each non-empty field.  The
resulting `slice` object is applied by `df.iloc[sl]`, which resolves it over
`row_count` rows with standard Python slice semantics (`slice.indices`).
-/

/-- The error cases of the slice branch of `main`.  The first three are the
`ValueError`s raised explicitly at lines 161, 166 and 177 of `viewdf.py`; the
last is the `ValueError` CPython raises when a zero-step slice is applied. -/
inductive SliceError where
  | badChars
  | tooManyFields
  | badField (f : String)
  | zeroStep
deriving DecidableEq, Repr

/-- The message carried by each `ValueError` of the slice branch
(the f-strings at lines 161, 166, 177 of `viewdf.py`, and CPython's
zero-step message). -/
def sliceErrorMsg : SliceError → String
  | .badChars => "Slice must contain only digits, minus signs, and colons"
  | .tooManyFields => "Slice must be in format start:stop:step"
  | .badField f => "Invalid slice value: " ++ f
  | .zeroStep => "slice step cannot be zero"

/-- The character whitelist of line 160:
`all(c in "-0123456789:" for c in args.slice)`. -/
def sliceCharOk (c : Char) : Bool :=
  c ∈ "-0123456789:".data

/-- Python `str.split(":")`: every occurrence of the separator starts a new
field, and the empty string splits into one empty field. -/
def splitColons : List Char → List (List Char)
  | [] => [[]]
  | c :: rest =>
      match splitColons rest, decide (c = ':') with
      | r, true => [] :: r
      | f :: t, false => (c :: f) :: t
      | [], false => [[c]]

/-- The colon-separated fields of a slice expression, as produced by
`args.slice.split(":")` at line 164 of `viewdf.py`. -/
def sliceFields (s : String) : List String :=
  (splitColons s.data).map fun l => ⟨l⟩

/-- The numeric value of a digit string. -/
def digitsVal (cs : List Char) : Nat :=
  cs.foldl (fun a c => a * 10 + (c.toNat - 48)) 0

/-- Python `int(p)` restricted to strings over the whitelisted alphabet
(digits, minus signs, colons, of which a field holds no colon): it succeeds
exactly on an optional minus sign followed by one or more digits.  (Python
`int` also strips whitespace and accepts `+` and `_`, but those characters
were already rejected by the line-160 whitelist.) -/
def pyInt? (p : String) : Option Int :=
  match p.data with
  | '-' :: rest =>
      if rest ≠ [] ∧ rest.all Char.isDigit then some (-(digitsVal rest : Int)) else none
  | cs =>
      if cs ≠ [] ∧ cs.all Char.isDigit then some ((digitsVal cs : Int)) else none

/-- Lines 170-177 of `viewdf.py`: an empty field becomes `None`, any other
field becomes its `int` value, and an `int` failure raises the
`"Invalid slice value"` error naming the field. -/
def parseField (p : String) : Except SliceError (Option Int) :=
  if p = "" then .ok none
  else match pyInt? p with
    | some k => .ok (some k)
    | none => .error (.badField p)

/-- Lines 158-177 of `viewdf.py`: whitelist check, split on `":"`, field
count check, then each field is parsed by `parseField`. -/
def parseSliceParts (s : String) : Except SliceError (List (Option Int)) :=
  if ¬ (s.data.all sliceCharOk) then .error .badChars
  else
    let parts := sliceFields s
    if 3 < parts.length then .error .tooManyFields
    else parts.mapM parseField

/-- `needle` occurs at the start of the second list. -/
def leadsWith : List Char → List Char → Bool
  | [], _ => true
  | _ :: _, [] => false
  | a :: as, b :: bs => a = b && leadsWith as bs

/-- `needle` occurs somewhere inside the second list. -/
def containsChars (needle : List Char) : List Char → Bool
  | [] => needle.isEmpty
  | c :: rest => leadsWith needle (c :: rest) || containsChars needle rest

/-- An error message names a fragment when the fragment occurs verbatim in
the message. -/
def msgNames (msg f : String) : Bool :=
  containsChars f.data msg.data

/-- Lines 180-185: the parsed fields become a Python `slice` object.  One
field is `slice(stop)`, i.e. start and step absent; two are `slice(start,
stop)`; three are `slice(start, stop, step)`.  `String.splitOn` never
returns `[]` and more than three fields were already rejected, so the
catch-all arm is unreachable. -/
def sliceTriple : List (Option Int) → Option Int × Option Int × Option Int
  | [x] => (none, x, none)
  | [x, y] => (x, y, none)
  | [x, y, z] => (x, y, z)
  | _ => (none, none, none)

/-- CPython `PySlice_AdjustIndices`: a negative index is an offset from the
length, then the result is clamped into the valid range for the step sign. -/
def adjustIndex (v : Int) (n : Nat) (negStep : Bool) : Int :=
  if v < 0 then
    let w := v + n
    if w < 0 then (if negStep then -1 else 0) else w
  else if (n : Int) ≤ v then (if negStep then (n : Int) - 1 else (n : Int)) else v

/-- CPython's slice length formula: the number of indices produced by a
slice with resolved bounds `start`, `stop` and non-zero `step`. -/
def sliceLength (start stop step : Int) : Nat :=
  if step < 0 then
    if stop < start then ((start - stop - 1) / (-step) + 1).toNat else 0
  else
    if start < stop then ((stop - start - 1) / step + 1).toNat else 0

/-- The resolved `(start, stop, step)` of a Python slice over `n` elements:
absent fields take the defaults for the step sign, present fields are
adjusted by `adjustIndex`. -/
def sliceBounds (a b c : Option Int) (n : Nat) : Int × Int × Int :=
  let step := c.getD 1
  let neg := step < 0
  let start := match a with
    | none => if neg then (n : Int) - 1 else 0
    | some v => adjustIndex v n neg
  let stop := match b with
    | none => if neg then -1 else (n : Int)
    | some v => adjustIndex v n neg
  (start, stop, step)

/-- Applying a Python slice to the positions `0, ..., n-1` (what
`df.iloc[sl]` does to the row range): `none` when the step is zero (CPython
raises `ValueError`), otherwise the list of selected positions. -/
def resolveIndices (a b c : Option Int) (n : Nat) : Option (List Int) :=
  if c.getD 1 = 0 then none
  else
    let (start, stop, step) := sliceBounds a b c n
    some ((List.range (sliceLength start stop step)).map fun i => start + step * i)

/-- The whole slice branch of `main` (lines 156-195): parse the expression,
build the slice, apply it to the row positions.  An `Except.error` value is
caught at line 193 and surfaced as exit code 5. -/
def resolveSlice (s : String) (n : Nat) : Except SliceError (List Int) := do
  let parts ← parseSliceParts s
  let (a, b, c) := sliceTriple parts
  match resolveIndices a b c n with
  | some l => .ok l
  | none => .error .zeroStep

/-- The exit code of the slice branch: line 192 returns 0 on success, line
195 returns 5 on any caught exception. -/
def sliceExitCode (r : Except SliceError (List Int)) : Nat :=
  match r with
  | .ok _ => 0
  | .error _ => 5

/-- A failed parse propagates through the slice branch unchanged. -/
theorem resolveSlice_parse_error {s : String} {n : Nat} {e : SliceError}
    (h : parseSliceParts s = .error e) : resolveSlice s n = .error e := by
  simp [resolveSlice, h, Bind.bind, Except.bind]

/-- A successful parse hands the fields to the slice application. -/
theorem resolveSlice_parse_ok {s : String} {n : Nat} {parts : List (Option Int)}
    (h : parseSliceParts s = .ok parts) :
    resolveSlice s n =
      (match resolveIndices (sliceTriple parts).1 (sliceTriple parts).2.1
          (sliceTriple parts).2.2 n with
        | some l => .ok l
        | none => .error .zeroStep) := by
  simp [resolveSlice, h, Bind.bind, Except.bind]

example : resolveSlice "5" 10 = .ok [0, 1, 2, 3, 4] := by rfl
example : resolveSlice "0:2" 10 = .ok [0, 1] := by rfl
example : resolveSlice "::2" 10 = .ok [0, 2, 4, 6, 8] := by rfl
example : resolveSlice "7::" 10 = .ok [7, 8, 9] := by rfl
example : resolveSlice "-3::" 10 = .ok [7, 8, 9] := by rfl
example : resolveSlice "1:6:2" 10 = .ok [1, 3, 5] := by rfl
example : resolveSlice "1:2:3:4" 17 = .error .tooManyFields := by rfl
example : resolveSlice "::0" 10 = .error .zeroStep := by rfl
example : resolveSlice "x:2" 10 = .error .badChars := by rfl
example : resolveSlice "0:-" 10 = .error (.badField "-") := by rfl
example : resolveSlice "15:" 10 = .ok [] := by rfl
example : resolveSlice "5:3" 10 = .ok [] := by rfl

/-- C2: For a table with `row_count = 10`, slice resolution produces exactly
the positions the spec enumerates: `"5"` yields `[0,1,2,3,4]` (a lone field
is the exclusive stop with start defaulting to 0), `"0:2"` yields `[0,1]`,
`"::2"` yields `[0,2,4,6,8]`, `"7::"` yields `[7,8,9]`, `"-3::"` yields
`[7,8,9]` (negative start is an offset from `row_count`), and `"1:6:2"`
yields `[1,3,5]`. -/
theorem resolve_examples_row_count_ten :
    resolveSlice "5" 10 = .ok [0, 1, 2, 3, 4] ∧
    resolveSlice "0:2" 10 = .ok [0, 1] ∧
    resolveSlice "::2" 10 = .ok [0, 2, 4, 6, 8] ∧
    resolveSlice "7::" 10 = .ok [7, 8, 9] ∧
    resolveSlice "-3::" 10 = .ok [7, 8, 9] ∧
    resolveSlice "1:6:2" 10 = .ok [1, 3, 5] :=
  ⟨rfl, rfl, rfl, rfl, rfl, rfl⟩

/-- C4: For every row count `n` and every slice text with more than three
colon-separated fields, slice resolution fails with a `SliceError`, surfaced
as the slice-parse failure exit code 5; in particular `"1:2:3:4"` fails for
every `n`. -/
theorem resolve_too_many_fields_error (s : String) (n : Nat)
    (h : 3 < (sliceFields s).length) :
    (∃ e, resolveSlice s n = .error e) ∧
      sliceExitCode (resolveSlice s n) = 5 ∧
      resolveSlice "1:2:3:4" n = .error .tooManyFields := by
  have herr : ∃ e, parseSliceParts s = Except.error e := by
    by_cases hc : s.data.all sliceCharOk
    · exact ⟨.tooManyFields, by simp [parseSliceParts, hc, h]⟩
    · exact ⟨.badChars, by simp [parseSliceParts, hc]⟩
  obtain ⟨e, he⟩ := herr
  have hr : resolveSlice s n = .error e := resolveSlice_parse_error he
  refine ⟨⟨e, hr⟩, by simp [sliceExitCode, hr], ?_⟩
  exact resolveSlice_parse_error (by rfl)

/-- Applying the C4 theorem at the spec's own example `"1:2:3:4"`. -/
theorem resolve_too_many_fields_error_witness :
    3 < (sliceFields "1:2:3:4").length ∧
      (∃ e, resolveSlice "1:2:3:4" 10 = .error e) ∧
      sliceExitCode (resolveSlice "1:2:3:4" 10) = 5 ∧
      resolveSlice "1:2:3:4" 10 = .error .tooManyFields :=
  ⟨by decide, resolve_too_many_fields_error "1:2:3:4" 10 (by decide)⟩

/-- C5: For every slice text whose step field parses to 0 and every row
count, slice resolution fails with a `SliceError` (the zero-step
`ValueError` raised when the slice is applied), surfaced as exit code 5. -/
theorem resolve_zero_step_error (s : String) (n : Nat) (a b : Option Int)
    (h : parseSliceParts s = .ok [a, b, some 0]) :
    resolveSlice s n = .error .zeroStep ∧
      sliceExitCode (resolveSlice s n) = 5 := by
  have hr := resolveSlice_parse_ok (n := n) h
  simp [sliceTriple, resolveIndices] at hr
  exact ⟨hr, by simp [sliceExitCode, hr]⟩

/-- Applying the C5 theorem at the spec's own example `"::0"`. -/
theorem resolve_zero_step_error_witness :
    parseSliceParts "::0" = .ok [none, none, some 0] ∧
      resolveSlice "::0" 10 = .error .zeroStep ∧
      sliceExitCode (resolveSlice "::0" 10) = 5 :=
  ⟨by rfl, resolve_zero_step_error "::0" 10 none none (by rfl)⟩

theorem leadsWith_self (l : List Char) : leadsWith l l = true := by
  induction l with
  | nil => rfl
  | cons a as ih => simp [leadsWith, ih]

theorem leadsWith_extend (needle hay suf : List Char)
    (h : leadsWith needle hay = true) : leadsWith needle (hay ++ suf) = true := by
  induction needle generalizing hay with
  | nil => rfl
  | cons a as ih =>
      cases hay with
      | nil => simp [leadsWith] at h
      | cons b bs =>
          simp [leadsWith] at h ⊢
          exact ⟨h.1, ih bs h.2⟩

theorem containsChars_nil (hay : List Char) : containsChars [] hay = true := by
  induction hay with
  | nil => rfl
  | cons c rest ih => simp [containsChars, leadsWith]

theorem containsChars_self (l : List Char) : containsChars l l = true := by
  cases l with
  | nil => rfl
  | cons c cs => simp [containsChars, leadsWith_self]

theorem containsChars_extend_right (needle hay suf : List Char)
    (h : containsChars needle hay = true) :
    containsChars needle (hay ++ suf) = true := by
  induction hay with
  | nil =>
      simp [containsChars, List.isEmpty_iff] at h
      subst h
      exact containsChars_nil suf
  | cons c rest ih =>
      simp [containsChars] at h ⊢
      rcases h with h | h
      · exact Or.inl (leadsWith_extend _ _ suf h)
      · exact Or.inr (ih h)

theorem containsChars_extend_left (needle pre hay : List Char)
    (h : containsChars needle hay = true) :
    containsChars needle (pre ++ hay) = true := by
  induction pre with
  | nil => exact h
  | cons p ps ih => simp [containsChars, ih]

theorem msgNames_self (f : String) : msgNames f f = true :=
  containsChars_self f.data

theorem msgNames_extend_left (a m f : String) (h : msgNames m f = true) :
    msgNames (a ++ m) f = true := by
  unfold msgNames at h ⊢
  rw [String.data_append]
  exact containsChars_extend_left _ _ _ h

theorem msgNames_extend_right (m b f : String) (h : msgNames m f = true) :
    msgNames (m ++ b) f = true := by
  unfold msgNames at h ⊢
  rw [String.data_append]
  exact containsChars_extend_right _ _ _ h

/-- The field parser fails exactly on a non-empty field that is not a valid
integer, and then it names the field. -/
theorem parseField_error_of_bad {p : String} (h1 : p ≠ "") (h2 : pyInt? p = none) :
    parseField p = .error (.badField p) := by
  simp [parseField, h1, h2]

/-- `mapM parseField` over fields containing a bad one fails on one of the
bad fields. -/
theorem mapM_parseField_error (ps : List String)
    (hex : ∃ f ∈ ps, f ≠ "" ∧ pyInt? f = none) :
    ∃ f ∈ ps, f ≠ "" ∧ pyInt? f = none ∧
      ps.mapM parseField = Except.error (SliceError.badField f) := by
  induction ps with
  | nil => simp at hex
  | cons p rest ih =>
      by_cases hp : p ≠ "" ∧ pyInt? p = none
      · refine ⟨p, by simp, hp.1, hp.2, ?_⟩
        rw [List.mapM_cons, parseField_error_of_bad hp.1 hp.2]
        rfl
      · have hex' : ∃ f ∈ rest, f ≠ "" ∧ pyInt? f = none := by
          obtain ⟨f, hf, hprop⟩ := hex
          rcases List.mem_cons.mp hf with h1 | h2
          · exact absurd (h1 ▸ hprop) hp
          · exact ⟨f, h2, hprop⟩
        obtain ⟨f, hf, h1, h2, h3⟩ := ih hex'
        have hok : ∃ v, parseField p = .ok v := by
          by_cases he : p = ""
          · exact ⟨none, by simp [parseField, he]⟩
          · have hi : pyInt? p ≠ none := fun hn => hp ⟨he, hn⟩
            obtain ⟨k, hk⟩ := Option.ne_none_iff_exists'.mp hi
            exact ⟨some k, by simp [parseField, he, hk]⟩
        obtain ⟨v, hv⟩ := hok
        refine ⟨f, by simp [hf], h1, h2, ?_⟩
        rw [List.mapM_cons, hv, h3]
        rfl

/-- C6 counterexample: the slice text `"x:2"` contains the field `"x"`,
which is not a valid integer, yet resolution fails with the character
whitelist error of line 161, whose message does not name the field.  The
claim, read over every slice text, is therefore false: the field-naming
error is only reached for texts over the whitelisted alphabet. -/
theorem resolve_bad_field_counterexample :
    "x" ∈ sliceFields "x:2" ∧ "x" ≠ "" ∧ pyInt? "x" = none ∧
      resolveSlice "x:2" 10 = .error .badChars ∧
      msgNames (sliceErrorMsg .badChars) "x" = false :=
  ⟨by decide, by decide, by rfl, by rfl, by rfl⟩

/-- C6 amended: for every slice text over the whitelisted alphabet with at
most three colon-separated fields, if some non-empty field is not a valid
integer then resolution fails with a `SliceError` naming (containing
verbatim) such a field. -/
theorem resolve_bad_field_named (s : String) (n : Nat)
    (hc : s.data.all sliceCharOk = true)
    (hlen : (sliceFields s).length ≤ 3)
    (hbad : ∃ f ∈ sliceFields s, f ≠ "" ∧ pyInt? f = none) :
    ∃ f ∈ sliceFields s, f ≠ "" ∧ pyInt? f = none ∧
      resolveSlice s n = .error (.badField f) ∧
      msgNames (sliceErrorMsg (.badField f)) f = true := by
  obtain ⟨f, hf, h1, h2, h3⟩ := mapM_parseField_error _ hbad
  have hp : parseSliceParts s = .error (.badField f) := by
    simp [parseSliceParts, hc, Nat.not_lt.mpr hlen]
    exact h3
  exact ⟨f, hf, h1, h2, resolveSlice_parse_error hp,
    msgNames_extend_left "Invalid slice value: " f f (msgNames_self f)⟩

/-- Applying the amended C6 theorem at `"0:-"`, whose second field `"-"` is
not a valid integer. -/
theorem resolve_bad_field_named_witness :
    ∃ f ∈ sliceFields "0:-", f ≠ "" ∧ pyInt? f = none ∧
      resolveSlice "0:-" 10 = .error (.badField f) ∧
      msgNames (sliceErrorMsg (.badField f)) f = true :=
  resolve_bad_field_named "0:-" 10 (by rfl) (by decide)
    ⟨"-", by decide, by decide, by rfl⟩

/-- C7: a well-formed slice (the parse succeeds and the step is not zero)
always resolves successfully with exit code 0; a resolved range of length
zero yields the empty position list rather than an error; in particular
`"15:"` (start beyond the data) and `"5:3"` (start at or past the stop with
positive step) both resolve to zero rows over ten rows. -/
theorem resolve_empty_range_ok :
    (∀ (s : String) (n : Nat) (parts : List (Option Int)),
        parseSliceParts s = .ok parts →
        (sliceTriple parts).2.2.getD 1 ≠ 0 →
        ∃ l, resolveSlice s n = .ok l ∧ sliceExitCode (resolveSlice s n) = 0) ∧
    (∀ (a b c : Option Int) (n : Nat) (start stop step : Int),
        sliceBounds a b c n = (start, stop, step) →
        c.getD 1 ≠ 0 → sliceLength start stop step = 0 →
        resolveIndices a b c n = some []) ∧
    resolveSlice "15:" 10 = .ok [] ∧ resolveSlice "5:3" 10 = .ok [] := by
  refine ⟨?_, ?_, by rfl, by rfl⟩
  · intro s n parts hp hstep
    have hr := resolveSlice_parse_ok (n := n) hp
    have hsome : ∃ l, resolveIndices (sliceTriple parts).1 (sliceTriple parts).2.1
        (sliceTriple parts).2.2 n = some l := by
      simp [resolveIndices, hstep]
    obtain ⟨l, hl⟩ := hsome
    rw [hl] at hr
    exact ⟨l, hr, by simp [sliceExitCode, hr]⟩
  · intro a b c n start stop step heq hc hlen
    simp [resolveIndices, hc, heq, hlen]

/-- Applying the C7 theorem at `"5:3"` over ten rows. -/
theorem resolve_empty_range_ok_witness :
    ∃ l, resolveSlice "5:3" 10 = .ok l ∧
      sliceExitCode (resolveSlice "5:3" 10) = 0 :=
  resolve_empty_range_ok.1 "5:3" 10 [some 5, some 3] (by rfl) (by decide)

/-! ## The action dispatch of `main` (lines 129-212)

`main` loads the dataframe and then walks a fixed sequence of action
blocks.  Only the slice block, the pickle-write block, and the
missing-column branch of the describe block return early.  The dataframe
itself is abstracted to its column names and row count, which is all the
dispatch inspects; each executed block is recorded as an `Action`.
-/

/-- The value of `args.describe` after parsing: the flag's default is
`None` (absent), its `const` is `True` (given without a value), and
otherwise it is the column-name string. -/
inductive DescribeArg where
  | absent
  | whole
  | col (c : String)
deriving DecidableEq, Repr

/-- The parsed command-line arguments that `main` dispatches on. -/
structure Args where
  columns : Bool
  shape : Bool
  info : Bool
  describe : DescribeArg
  head : Option Int
  tail : Option Int
  sample : Option Int
  sliceArg : Option String
  toPickle : Option String
deriving DecidableEq, Repr

/-- The dataframe, abstracted to what the dispatch of `main` inspects. -/
structure Table where
  cols : List String
  rowCount : Nat
deriving DecidableEq, Repr

/-- One executed action block of `main`. -/
inductive Action where
  | listColumns
  | showShape
  | showInfo
  | describeAll
  | describeCol (c : String)
  | showHead
  | showTail
  | showSample
  | showSlice
  | defaultHead
  | writePickle
deriving DecidableEq, Repr

/-- The observable outcome of `main` after a successful load: the exit
code, the executed action blocks in order, and the stderr diagnostic of an
early error return, if any.  An exception raised outside every `try` block
aborts `main`; run as a CLI (`raise SystemExit(main())`), the interpreter
prints the traceback and exits with status 1, recorded here as exit code 1
with the traceback's error line as the diagnostic. -/
structure RunResult where
  exit : Nat
  actions : List Action
  err : Option String
deriving DecidableEq, Repr

/-- Python truthiness of `args.describe` as used by the no-action check at
line 198: `None` is falsy, `True` is truthy, a string is truthy iff
non-empty. -/
def describeTruthy : DescribeArg → Bool
  | .absent => false
  | .whole => true
  | .col c => decide (c ≠ "")

/-- Python truthiness of an optional string argument (`args.to_pickle`). -/
def strOptTruthy : Option String → Bool
  | none => false
  | some s => decide (s ≠ "")

/-- Lines 204-212: write the pickle when `args.to_pickle` is truthy.  The
file-system outcome of `df.to_pickle` is abstracted as `pickleOk`; a
failure prints the line-209 message and returns 4, otherwise `main` falls
through to `return 0`. -/
def pickleStep (a : Args) (pickleOk : Bool) (acts : List Action) : RunResult :=
  match a.toPickle with
  | some p =>
      if p = "" then ⟨0, acts, none⟩
      else if pickleOk then ⟨0, acts ++ [.writePickle], none⟩
      else ⟨4, acts, some (("Failed to save pickle to '" ++ p) ++ "'")⟩
  | none => ⟨0, acts, none⟩

/-- Lines 197-202: when no action flag is truthy, print the first five rows. -/
def defaultHeadStep (a : Args) (pickleOk : Bool) (acts : List Action) : RunResult :=
  if ¬ (a.columns || a.shape || a.info || describeTruthy a.describe ||
      a.head.isSome || a.tail.isSome || a.sample.isSome || a.sliceArg.isSome ||
      strOptTruthy a.toPickle) then
    pickleStep a pickleOk (acts ++ [.defaultHead])
  else pickleStep a pickleOk acts

/-- Lines 156-195: the slice block.  A successful resolution prints the
rows and returns 0 at line 192 without reaching the pickle write; a failure
prints the line-194 message and returns 5. -/
def sliceStep (a : Args) (t : Table) (pickleOk : Bool) (acts : List Action) :
    RunResult :=
  match a.sliceArg with
  | some s =>
      match resolveSlice s t.rowCount with
      | .ok _ => ⟨0, acts ++ [.showSlice], none⟩
      | .error e =>
          ⟨5, acts, some ((("Invalid slice '" ++ s) ++ "': ") ++ sliceErrorMsg e)⟩
  | none => defaultHeadStep a pickleOk acts

/-- Lines 154-155: the sample block.  `df.sample(n=args.sample)` sits
outside every `try`: with the default `replace=False`, pandas raises an
uncaught `ValueError` for a negative sample size or for one larger than the
row count, aborting `main` before the slice block; otherwise the sampled
rows are printed. -/
def sampleStep (a : Args) (t : Table) (pickleOk : Bool) (acts : List Action) :
    RunResult :=
  match a.sample with
  | some m =>
      if m < 0 then
        ⟨1, acts,
          some "ValueError: A negative number of rows requested. Please provide `n` >= 0."⟩
      else if (t.rowCount : Int) < m then
        ⟨1, acts,
          some "ValueError: Cannot take a larger sample than population when 'replace=False'"⟩
      else sliceStep a t pickleOk (acts ++ [.showSample])
  | none => sliceStep a t pickleOk acts

/-- Lines 150-153: the head and tail blocks (`df.head` and `df.tail`
accept any integer, so these never raise). -/
def headTailActs (a : Args) (acts : List Action) : List Action :=
  let acts := if a.head.isSome then acts ++ [.showHead] else acts
  if a.tail.isSome then acts ++ [.showTail] else acts

/-- Lines 150-155: the head, tail and sample blocks in source order. -/
def rowsStep (a : Args) (t : Table) (pickleOk : Bool) (acts : List Action) :
    RunResult :=
  sampleStep a t pickleOk (headTailActs a acts)

/-- Lines 138-149: the describe block.  The guard `args.describe is not
False` at line 138 holds for every parse result, because the flag's default
is `None` and its const is `True`; so the block always runs.  `True` and
`None` describe the whole dataframe — where `df.describe(include="all")`
at line 142 sits outside every `try` and raises an uncaught `ValueError`
on a dataframe without columns (reachable via a pickled empty DataFrame),
aborting `main`.  A string names a column, and an absent column prints the
line-146 message and returns 3. -/
def describeStep (a : Args) (t : Table) (pickleOk : Bool) (acts : List Action) :
    RunResult :=
  match a.describe with
  | .col c =>
      if c ∈ t.cols then rowsStep a t pickleOk (acts ++ [.describeCol c])
      else ⟨3, acts, some (("Column '" ++ c) ++ "' not found")⟩
  | _ =>
      if t.cols = [] then
        ⟨1, acts, some "ValueError: Cannot describe a DataFrame without columns"⟩
      else rowsStep a t pickleOk (acts ++ [.describeAll])

/-- The action blocks of lines 130-137: list columns, show shape, show
info, in source order. -/
def initialActs (a : Args) : List Action :=
  ((if a.columns then [Action.listColumns] else []) ++
      (if a.shape then [Action.showShape] else [])) ++
    (if a.info then [Action.showInfo] else [])

/-- The whole dispatch of `main` after a successful load. -/
def runMain (a : Args) (t : Table) (pickleOk : Bool) : RunResult :=
  describeStep a t pickleOk (initialActs a)

theorem mem_initialActs (a : Args) (x : Action) (h : x ∈ initialActs a) :
    x = .listColumns ∨ x = .showShape ∨ x = .showInfo := by
  unfold initialActs at h
  split at h <;> split at h <;> split at h <;> simp_all <;> tauto

/-- C1 (code bug): with no `--describe` flag at all (`args.describe` is the
default `None`) and `--slice 0:2`, the run executes the whole-table
describe block *and* the slice block, and exits 0.  Line 138 tests
`args.describe is not False`, which holds for every parse result since the
flag's default is `None`; the script's own usage documentation says a plain
invocation shows the first five rows and that statistics appear only under
`--describe`. -/
theorem main_runs_describe_without_flag :
    runMain ⟨false, false, false, .absent, none, none, none, some "0:2", none⟩
        ⟨["a", "b"], 10⟩ true =
      ⟨0, [Action.describeAll, Action.showSlice], none⟩ ∧
    Action.describeAll ∈
      (runMain ⟨false, false, false, .absent, none, none, none, some "0:2", none⟩
        ⟨["a", "b"], 10⟩ true).actions ∧
    Action.showSlice ∈
      (runMain ⟨false, false, false, .absent, none, none, none, some "0:2", none⟩
        ⟨["a", "b"], 10⟩ true).actions :=
  ⟨by rfl, by decide, by decide⟩

/-- C9: a single-column describe of a name absent from the table's columns
returns the distinct column-not-found exit code 3, produces no statistics
(neither the whole-table nor the single-column describe block runs), and
its diagnostic names the column. -/
theorem describe_missing_column_exit (a : Args) (t : Table) (c : String)
    (k : Bool) (hd : a.describe = .col c) (hc : c ∉ t.cols) :
    (runMain a t k).exit = 3 ∧
    Action.describeCol c ∉ (runMain a t k).actions ∧
    Action.describeAll ∉ (runMain a t k).actions ∧
    ∃ m, (runMain a t k).err = some m ∧ msgNames m c = true := by
  have hr : runMain a t k =
      ⟨3, initialActs a, some (("Column '" ++ c) ++ "' not found")⟩ := by
    unfold runMain describeStep
    rw [hd]
    simp [hc]
  rw [hr]
  refine ⟨rfl, ?_, ?_, ("Column '" ++ c) ++ "' not found", rfl, ?_⟩
  · intro hmem
    rcases mem_initialActs a _ hmem with h | h | h <;> cases h
  · intro hmem
    rcases mem_initialActs a _ hmem with h | h | h <;> cases h
  · exact msgNames_extend_right _ "' not found" c
      (msgNames_extend_left "Column '" c c (msgNames_self c))

/-- Applying the C9 theorem to a table without an `"age"` column. -/
theorem describe_missing_column_exit_witness :
    (runMain ⟨false, false, false, .col "age", none, none, none, none, none⟩
        ⟨["a", "b"], 3⟩ true).exit = 3 ∧
    Action.describeCol "age" ∉
      (runMain ⟨false, false, false, .col "age", none, none, none, none, none⟩
        ⟨["a", "b"], 3⟩ true).actions ∧
    Action.describeAll ∉
      (runMain ⟨false, false, false, .col "age", none, none, none, none, none⟩
        ⟨["a", "b"], 3⟩ true).actions ∧
    ∃ m, (runMain ⟨false, false, false, .col "age", none, none, none, none, none⟩
        ⟨["a", "b"], 3⟩ true).err = some m ∧ msgNames m "age" = true :=
  describe_missing_column_exit _ _ "age" true rfl (by decide)

/-- When the slice expression resolves, the slice block returns 0 with the
rows printed, whatever actions came before. -/
theorem sliceStep_ok (a : Args) (t : Table) (k : Bool) (s : String)
    (l : List Int) (hs : a.sliceArg = some s)
    (hok : resolveSlice s t.rowCount = .ok l) (acts : List Action) :
    sliceStep a t k acts = ⟨0, acts ++ [.showSlice], none⟩ := by
  simp [sliceStep, hs, hok]

/-- When the sample size (if any) is in range, the sample block does not
abort and a successful slice returns 0 with the rows shown. -/
theorem sampleStep_slice_ok (a : Args) (t : Table) (k : Bool) (s : String)
    (l : List Int) (hs : a.sliceArg = some s)
    (hok : resolveSlice s t.rowCount = .ok l)
    (hsamp : ∀ m, a.sample = some m → 0 ≤ m ∧ m ≤ (t.rowCount : Int))
    (acts : List Action) :
    sampleStep a t k acts = ⟨0, acts ++ [.showSlice], none⟩ ∨
    sampleStep a t k acts = ⟨0, (acts ++ [.showSample]) ++ [.showSlice], none⟩ := by
  cases hsm : a.sample with
  | none =>
      left
      simp [sampleStep, hsm, sliceStep_ok a t k s l hs hok]
  | some m =>
      right
      obtain ⟨h1, h2⟩ := hsamp m hsm
      have hc1 : ¬ m < 0 := by omega
      have hc2 : ¬ (t.rowCount : Int) < m := by omega
      simp [sampleStep, hsm, hc1, hc2, sliceStep_ok a t k s l hs hok]

/-- The head/tail blocks add only display actions. -/
theorem mem_headTailActs (a : Args) (acts : List Action)
    (hna : Action.writePickle ∉ acts) :
    Action.writePickle ∉ headTailActs a acts := by
  unfold headTailActs
  split_ifs <;> simp_all

/-- Through the head/tail/sample blocks and a successful slice, the pickle
write is never reached: the result exits 0, shows the slice, and contains
no write action unless one was already accumulated. -/
theorem rowsStep_slice_ok (a : Args) (t : Table) (k : Bool) (s : String)
    (l : List Int) (hs : a.sliceArg = some s)
    (hok : resolveSlice s t.rowCount = .ok l)
    (hsamp : ∀ m, a.sample = some m → 0 ≤ m ∧ m ≤ (t.rowCount : Int))
    (acts : List Action) (hna : Action.writePickle ∉ acts) :
    (rowsStep a t k acts).exit = 0 ∧
    Action.writePickle ∉ (rowsStep a t k acts).actions ∧
    Action.showSlice ∈ (rowsStep a t k acts).actions := by
  have hht := mem_headTailActs a acts hna
  unfold rowsStep
  rcases sampleStep_slice_ok a t k s l hs hok hsamp (headTailActs a acts)
      with h | h <;> rw [h] <;> refine ⟨rfl, ?_, by simp⟩ <;> simp_all

/-- C10: in every invocation where a slice expression is given and
resolves successfully — so execution reaches the slice block: the describe
block neither exited on a missing column nor crashed on a column-less
dataframe, and the sample block (if a sample was requested) did not crash
on an out-of-range size — `main` returns 0 from within the slice block, so
a requested `--to-pickle` destination is never written. -/
theorem slice_suppresses_pickle_write (a : Args) (t : Table) (k : Bool)
    (s p : String) (l : List Int)
    (hs : a.sliceArg = some s)
    (hok : resolveSlice s t.rowCount = .ok l)
    (_hp : a.toPickle = some p)
    (hd : ∀ c, a.describe = .col c → c ∈ t.cols)
    (hcols : t.cols ≠ [])
    (hsamp : ∀ m, a.sample = some m → 0 ≤ m ∧ m ≤ (t.rowCount : Int)) :
    (runMain a t k).exit = 0 ∧
    Action.writePickle ∉ (runMain a t k).actions ∧
    Action.showSlice ∈ (runMain a t k).actions := by
  have hinit : Action.writePickle ∉ initialActs a := by
    intro hmem
    rcases mem_initialActs a _ hmem with h | h | h <;> cases h
  cases hdesc : a.describe with
  | col c =>
      have hcmem : c ∈ t.cols := hd c hdesc
      have hr : runMain a t k = rowsStep a t k (initialActs a ++ [.describeCol c]) := by
        unfold runMain describeStep
        rw [hdesc]
        simp [hcmem]
      rw [hr]
      refine rowsStep_slice_ok a t k s l hs hok hsamp _ ?_
      simp [hinit]
  | absent =>
      have hr : runMain a t k = rowsStep a t k (initialActs a ++ [.describeAll]) := by
        unfold runMain describeStep
        rw [hdesc]
        simp [hcols]
      rw [hr]
      refine rowsStep_slice_ok a t k s l hs hok hsamp _ ?_
      simp [hinit]
  | whole =>
      have hr : runMain a t k = rowsStep a t k (initialActs a ++ [.describeAll]) := by
        unfold runMain describeStep
        rw [hdesc]
        simp [hcols]
      rw [hr]
      refine rowsStep_slice_ok a t k s l hs hok hsamp _ ?_
      simp [hinit]

/-- Applying the C10 theorem to a run asking for both `--slice 0:2` and
`--to-pickle out.pkl`. -/
theorem slice_suppresses_pickle_write_witness :
    (runMain ⟨false, false, false, .absent, none, none, none, some "0:2",
        some "out.pkl"⟩ ⟨["a"], 10⟩ true).exit = 0 ∧
    Action.writePickle ∉
      (runMain ⟨false, false, false, .absent, none, none, none, some "0:2",
        some "out.pkl"⟩ ⟨["a"], 10⟩ true).actions ∧
    Action.showSlice ∈
      (runMain ⟨false, false, false, .absent, none, none, none, some "0:2",
        some "out.pkl"⟩ ⟨["a"], 10⟩ true).actions :=
  slice_suppresses_pickle_write _ _ true "0:2" "out.pkl" [0, 1] rfl (by rfl)
    rfl (fun c h => by cases h) (by decide) (fun m h => by cases h)

/-! ## The snapshot branch of `load_dataframe` (lines 61-83) -/

/-- The value decoded from the pickle bytes by `pd.read_pickle`,
abstracted: either a DataFrame (table-shaped) or any other Python object,
represented by its type name (`type(df).__name__` at line 72). -/
inductive Decoded where
  | frame (t : Table)
  | other (kind : String)
deriving DecidableEq, Repr

/-- `path.endswith(".pkl")` (line 69), computed on reversed character
lists. -/
def endsWithPkl (path : String) : Bool :=
  leadsWith (".pkl".data.reverse) (path.data.reverse)

/-- Lines 68-83 of `load_dataframe`, with the byte decoding of
`pd.read_pickle` abstracted as `decoded` and the delimited-text branch
abstracted as `csvResult`.  A pickle that does not contain a DataFrame
raises the line-72 `RuntimeError` naming the decoded kind, and line 82
wraps every load failure with the file name. -/
def load_dataframe (path : String) (decoded : Decoded)
    (csvResult : Except String Table) : Except String Table :=
  if endsWithPkl path then
    match decoded with
    | .frame t => .ok t
    | .other kind =>
        .error (((("Failed to read '" ++ path) ++ "': Pickle contains ") ++
          kind) ++ ", not a DataFrame")
  else csvResult

/-- Lines 123-127 of `main`: a load failure is printed and surfaced as exit
code 2; a successful load continues (no exit yet). -/
def loadExitCode (r : Except String Table) : Option Nat :=
  match r with
  | .ok _ => none
  | .error _ => some 2

/-- C8: when a source carrying the snapshot extension decodes to a value
that is not table-shaped, loading fails with an error naming the actual
decoded kind, the failure is surfaced with the read/ingest failure exit
code 2, and no `Table` is produced. -/
theorem load_snapshot_not_table_error (path kind : String)
    (csvResult : Except String Table) (hp : endsWithPkl path = true) :
    ∃ m, load_dataframe path (.other kind) csvResult = .error m ∧
      msgNames m kind = true ∧
      loadExitCode (load_dataframe path (.other kind) csvResult) = some 2 ∧
      ∀ t, load_dataframe path (.other kind) csvResult ≠ .ok t := by
  have hl : load_dataframe path (.other kind) csvResult =
      .error (((("Failed to read '" ++ path) ++ "': Pickle contains ") ++
        kind) ++ ", not a DataFrame") := by
    simp [load_dataframe, hp]
  refine ⟨_, hl, ?_, by simp [loadExitCode, hl], by simp [hl]⟩
  exact msgNames_extend_right _ ", not a DataFrame" kind
    (msgNames_extend_left _ kind kind (msgNames_self kind))

/-- Applying the C8 theorem to a pickle that decodes to a Python `list`. -/
theorem load_snapshot_not_table_error_witness :
    ∃ m, load_dataframe "data.pkl" (.other "list") (.ok ⟨[], 0⟩) = .error m ∧
      msgNames m "list" = true ∧
      loadExitCode (load_dataframe "data.pkl" (.other "list") (.ok ⟨[], 0⟩)) =
        some 2 ∧
      ∀ t, load_dataframe "data.pkl" (.other "list") (.ok ⟨[], 0⟩) ≠ .ok t :=
  load_snapshot_not_table_error "data.pkl" "list" (.ok ⟨[], 0⟩) (by rfl)

/-! ## Type inference over delimited text

The source delegates delimited-text parsing and per-column type inference
to the external pandas CSV reader (`pd.read_csv` at line 80), so the
inference algorithm itself is not part of this repository.  The spec
describes it in §4.1; the definitions below are modelled from those words.
-/

/-- Modelled from the spec: the exponent tail of "standard decimal and
exponent notation", after the `e`/`E` marker — an optional sign and one or
more digits. -/
def parseExpTail (r : List Char) : Option Int :=
  match r with
  | '-' :: d => if d ≠ [] ∧ d.all Char.isDigit then some (-(digitsVal d : Int)) else none
  | '+' :: d => if d ≠ [] ∧ d.all Char.isDigit then some ((digitsVal d : Int)) else none
  | d => if d ≠ [] ∧ d.all Char.isDigit then some ((digitsVal d : Int)) else none

/-- Modelled from the spec: a cell "parses as a float64" when it is
standard decimal or exponent notation — an optional sign, digits with an
optional decimal point (at least one digit overall), and an optional
exponent part.  The result is the literal's exact value `mant * 10 ^ eff`,
as a signed mantissa and a decimal exponent. -/
def parseFloatLit (s : String) : Option (Int × Int) :=
  let cs := s.data
  let neg := match cs with
    | '-' :: _ => true
    | _ => false
  let cs1 := match cs with
    | '-' :: r => r
    | '+' :: r => r
    | r => r
  let ip := cs1.takeWhile Char.isDigit
  let cs2 := cs1.dropWhile Char.isDigit
  let fp := match cs2 with
    | '.' :: r => r.takeWhile Char.isDigit
    | _ => []
  let cs3 := match cs2 with
    | '.' :: r => r.dropWhile Char.isDigit
    | r => r
  if ip = [] ∧ fp = [] then none
  else
    let e? : Option Int := match cs3 with
      | [] => some 0
      | 'e' :: r => parseExpTail r
      | 'E' :: r => parseExpTail r
      | _ => none
    match e? with
    | none => none
    | some e =>
        let mant : Int := if neg then -(digitsVal (ip ++ fp) : Int) else (digitsVal (ip ++ fp) : Int)
        some (mant, e - fp.length)

/-- The largest finite float64, `(2^53 - 1) * 2^971`. -/
def maxFloat64 : Nat := (2 ^ 53 - 1) * 2 ^ 971

/-- `|mant * 10 ^ eff| ≤ maxFloat64`, decided in exact integer
arithmetic.  (A literal below the subnormal range underflows to zero,
which is still a finite float64, so only the upper bound matters.) -/
def litFinite (mant eff : Int) : Bool :=
  if 0 ≤ eff then mant.natAbs * 10 ^ eff.toNat ≤ maxFloat64
  else mant.natAbs ≤ maxFloat64 * 10 ^ (-eff).toNat

/-- Modelled from the spec: a cell "parses as a finite float64" when it is
standard decimal or exponent notation and its value fits in the finite
float64 range. -/
def isFiniteFloat64Lit (s : String) : Bool :=
  match parseFloatLit s with
  | some (m, e) => litFinite m e
  | none => false

/-- The inferred type tag of a column. -/
inductive ColType where
  | numeric
  | text
deriving DecidableEq, Repr

/-- Modelled from the spec: "a column is Numeric iff every non-empty cell
parses as a finite float64 ...; otherwise Text. ... A column with zero data
rows defaults to Text." -/
def inferType (cells : List String) : ColType :=
  if cells.isEmpty then .text
  else if cells.all (fun c => c = "" || isFiniteFloat64Lit c) then .numeric
  else .text

/-- Modelled from the spec: the delimited text after separator splitting —
a header row of column names and data rows of cells; a missing trailing
cell reads as the empty (Missing) cell. -/
structure RawTable where
  header : List String
  rows : List (List String)
deriving DecidableEq, Repr

/-- The cells of column `j`, one per data row; short rows contribute the
empty cell. -/
def columnCells (rt : RawTable) (j : Nat) : List String :=
  rt.rows.map fun r => r.getD j ""

/-- Modelled from the spec: "run per column over all post-header values" —
the inferred type of each header column in order. -/
def inferredTypes (rt : RawTable) : List ColType :=
  (List.range rt.header.length).map fun j => inferType (columnCells rt j)

/-- The column-level characterisation of the inference: Numeric exactly
when there is at least one data row and every non-empty cell is a finite
float64 literal. -/
theorem inferType_numeric_iff (cells : List String) :
    inferType cells = .numeric ↔
      (cells ≠ [] ∧ ∀ c ∈ cells, c ≠ "" → isFiniteFloat64Lit c = true) := by
  unfold inferType
  by_cases he : cells.isEmpty
  · simp [he, List.isEmpty_iff.mp he]
  · have hne : cells ≠ [] := by simpa [List.isEmpty_iff] using he
    by_cases hall : cells.all (fun c => c = "" || isFiniteFloat64Lit c)
    · simp only [he, Bool.false_eq_true, if_false, hall, if_true]
      refine ⟨fun _ => ⟨hne, ?_⟩, fun _ => trivial⟩
      intro c hc hcne
      have := List.all_eq_true.mp hall c hc
      simpa [hcne] using this
    · simp only [he, Bool.false_eq_true, if_false, hall, Bool.false_eq_true,
        if_false]
      constructor
      · intro h
        cases h
      · rintro ⟨-, hforall⟩
        exact absurd (List.all_eq_true.mpr fun c hc => by
          by_cases hce : c = ""
          · simp [hce]
          · simp [hce, hforall c hc hce]) hall

/-- C3: type inference is total and deterministic — every ingested column
gets a type, the column is Numeric iff every non-empty cell parses as a
finite float64 (empty cells never block Numeric inference, witnessed by the
middle conjunct: adding an empty cell preserves Numeric), and re-running
the inference on the same text yields the same types. -/
theorem infer_types_numeric_iff (rt : RawTable) (j : Nat)
    (hj : j < rt.header.length) :
    ((inferredTypes rt).getD j .text = .numeric ↔
      (rt.rows ≠ [] ∧
        ∀ r ∈ rt.rows, r.getD j "" ≠ "" →
          isFiniteFloat64Lit (r.getD j "") = true)) ∧
    (∀ cells, inferType cells = .numeric → inferType (cells ++ [""]) = .numeric) ∧
    inferredTypes rt = inferredTypes rt := by
  have hget : (inferredTypes rt).getD j .text = inferType (columnCells rt j) := by
    unfold inferredTypes
    rw [List.getD_eq_getElem?_getD, List.getElem?_map, List.getElem?_range hj]
    rfl
  refine ⟨?_, ?_, rfl⟩
  · rw [hget, inferType_numeric_iff]
    unfold columnCells
    simp [List.forall_mem_map]
  · intro cells h
    rw [inferType_numeric_iff] at h ⊢
    obtain ⟨h1, h2⟩ := h
    refine ⟨by simp, ?_⟩
    intro c hc hcne
    rcases List.mem_append.mp hc with hm | hm
    · exact h2 c hm hcne
    · simp only [List.mem_singleton] at hm
      exact absurd hm hcne

/-- Applying the C3 theorem to a one-column table whose cells are `"1.5"`,
`"2e3"` and the empty cell. -/
theorem infer_types_numeric_iff_witness :
    0 < (RawTable.mk ["a"] [["1.5"], ["2e3"], [""]]).header.length ∧
    (((inferredTypes ⟨["a"], [["1.5"], ["2e3"], [""]]⟩).getD 0 .text = .numeric ↔
      ((RawTable.mk ["a"] [["1.5"], ["2e3"], [""]]).rows ≠ [] ∧
        ∀ r ∈ (RawTable.mk ["a"] [["1.5"], ["2e3"], [""]]).rows, r.getD 0 "" ≠ "" →
          isFiniteFloat64Lit (r.getD 0 "") = true)) ∧
    (∀ cells, inferType cells = .numeric → inferType (cells ++ [""]) = .numeric) ∧
    inferredTypes ⟨["a"], [["1.5"], ["2e3"], [""]]⟩ =
      inferredTypes ⟨["a"], [["1.5"], ["2e3"], [""]]⟩) ∧
    inferredTypes ⟨["a"], [["1.5"], ["2e3"], [""]]⟩ = [.numeric] :=
  ⟨by decide, infer_types_numeric_iff ⟨["a"], [["1.5"], ["2e3"], [""]]⟩ 0 (by decide),
    by rfl⟩

end Viewdf
